import Mathlib

/-!
Verification of the `pipelines` repository's own code against its
specification.

The repository has two source files:

* `src/clustering/mask_surface.py` — the `MaskSurface` nipype interface,
  whose `_run_interface` loads a 4D volume, resizes its buffer to shape
  `(X*Z, 1, 1, T)`, builds a zero mask of that shape, writes `1` into the
  rows selected by a per-hemisphere vertex table, resizes the mask back to
  the original shape and saves it with the input's affine.
* `src/lsd_lemon/lsd_resting.py` — `create_lsd_resting`, declarative
  wiring of a nipype workflow: parameter assignments to node inputs, an
  iterable scan source, a `DataSink` with substitution rules, and a
  crash-dump directory configuration.

Pure fragments of both files are embedded below; the numpy buffer
operations (`ndarray.resize`, fancy row assignment) are modelled by their
documented flat-buffer semantics (trim or zero-pad in row-major order).
Python runtime failures (unbound local `NameError`, out-of-range
`IndexError`) are modelled with `Except`.
-/

/-- Python-level failures that the embedded code can raise.
`unsupportedHemisphere` is the typed error named by the specification; the
source never raises it (it has no such class), so it exists here only to
state claims that mention it. -/
inductive PyErr : Type
  | nameError
  | indexError
  | unsupportedHemisphere
  deriving DecidableEq, Repr

/-- A 4D NIfTI volume: shape `(dimX, dimY, dimZ, dimT)`, a flat row-major
data buffer, and the spatial affine (carried opaquely as a flat list). -/
structure Volume : Type where
  dimX : Nat
  dimY : Nat
  dimZ : Nat
  dimT : Nat
  data : List Int
  affine : List Int
  deriving DecidableEq, Repr

/-- `numpy.ndarray.resize(newshape)` flat-buffer semantics: keep the
row-major buffer, trimmed to the new total size, zero-padded if the new
size is larger. -/
def resizeFlat (l : List Int) (n : Nat) : List Int :=
  l.take n ++ List.replicate (n - l.length) 0

/-- One numpy row assignment `mask[v][:] = 1` on a buffer of row length
`T`, viewed flat: positions `s ≤ i < s + len` become `1` (with
`s = v * T`, `len = T`); the index offset `i` tracks the position of the
head of the remaining list. -/
def setFrom (s len : Nat) : Nat → List Int → List Int
  | _, [] => []
  | i, a :: rest => (if s ≤ i ∧ i < s + len then 1 else a) :: setFrom s len (i + 1) rest

/-- `mask[v][:] = 1` for a mask of logical shape `(xz, 1, 1, T)`. -/
def setRange (l : List Int) (s len : Nat) : List Int :=
  setFrom s len 0 l

/-- The loop `for i, vertex in enumerate(chosenvertices): mask[vertex][:] = 1`
over a mask of logical shape `(xz, 1, 1, T)`.  A vertex at or beyond the
first dimension `xz` raises `IndexError`. -/
def applyVertices (xz T : Nat) : List Int → List Nat → Except PyErr (List Int)
  | mask, [] => .ok mask
  | mask, v :: vs =>
    if v < xz then applyVertices xz T (setRange mask (v * T) T) vs
    else .error .indexError

/-- `MaskSurface._run_interface` from `src/clustering/mask_surface.py`,
parameterised by the two fixed vertex tables (`lhvertices`, `rhvertices`
are imported there from a `variables` module that is not part of the
source tree).  Mirrors the source line by line:
`data.resize(X*Z,1,1,T)`; `mask = np.zeros_like(data)`;
the two `if hemi == ...` statements (any other value leaves
`chosenvertices` unbound, so the loop raises `NameError`);
the vertex loop; `mask.resize(origdata)`; `Nifti1Image(mask, affine)`. -/
def maskSurface (lhvertices rhvertices : List Nat) (vol : Volume) (hemi : String) :
    Except PyErr Volume :=
  let X := vol.dimX
  let Y := vol.dimY
  let Z := vol.dimZ
  let T := vol.dimT
  let data1 := resizeFlat vol.data (X * Z * 1 * 1 * T)
  let mask0 : List Int := List.replicate data1.length 0
  let chosen : Except PyErr (List Nat) :=
    if hemi = "lh" then .ok lhvertices
    else if hemi = "rh" then .ok rhvertices
    else .error .nameError
  match chosen with
  | .error e => .error e
  | .ok chosenvertices =>
    match applyVertices (X * Z) T mask0 chosenvertices with
    | .error e => .error e
    | .ok mask1 =>
      .ok { dimX := X, dimY := Y, dimZ := Z, dimT := T,
            data := resizeFlat mask1 (X * Y * Z * T), affine := vol.affine }

/-- The buffer reinterpretation step of `_run_interface` in isolation:
`data.resize(data.shape[0]*data.shape[2], 1, 1, data.shape[3])`. -/
def reinterpretBuffer (vol : Volume) : List Int :=
  resizeFlat vol.data (vol.dimX * vol.dimZ * 1 * 1 * vol.dimT)

/-- The reinterpretation the specification describes: row-major
flattening over the `X` and `Z` axes with the `Y` axis dropped (i.e. new
flat position `(x*Z + z)*T + t` holds the input element at index
`(x, 0, z, t)`). -/
def dropYFlatten (vol : Volume) : List Int :=
  (List.range (vol.dimX * vol.dimZ * vol.dimT)).map (fun p =>
    let x := p / (vol.dimZ * vol.dimT)
    let r := p % (vol.dimZ * vol.dimT)
    vol.data.getD (x * (vol.dimY * vol.dimZ * vol.dimT) + r) 0)

/-- `fmap_info` from `src/lsd_lemon/lsd_resting.py`: the if/elif chain
mapping a scan identifier to `(fmap_id, pe_dir)`; any other identifier
reaches `return fmap_id, pe_dir` with both names unbound (`NameError`). -/
def fmap_info (scan_id : String) : Except PyErr (String × String) :=
  if scan_id = "rest1a" then .ok ("fmap1", "y-")
  else if scan_id = "rest1b" then .ok ("fmap1", "y")
  else if scan_id = "rest2a" then .ok ("fmap2", "y-")
  else if scan_id = "rest2b" then .ok ("fmap2", "y")
  else .error .nameError

/-- The output ports declared by `MaskSurfaceOutputSpec`. -/
def maskSurfaceOutputSpecFields : List String := ["surface_mask"]

/-- `MaskSurface._list_outputs`: starts from `self._outputs().get()`
(every declared port mapped to undefined) and assigns the result file to
the key `"mask_surface"`. -/
def maskSurfaceListOutputs : List (String × Option String) :=
  [("surface_mask", none), ("mask_surface", some "surfacemask.nii")]

/-- A concrete volume of shape `(2, 1, 2, 1)` used to instantiate the
masking theorems. -/
def volA : Volume :=
  { dimX := 2, dimY := 1, dimZ := 2, dimT := 1, data := [5, 6, 7, 8], affine := [7] }

/-- A concrete volume of shape `(2, 2, 1, 1)` (so `Y = 2`): its buffer
truncation differs from the drop-`Y` flattening. -/
def volB : Volume :=
  { dimX := 2, dimY := 2, dimZ := 1, dimT := 1, data := [10, 20, 30, 40], affine := [] }

/-- The configuration parameters of `create_lsd_resting` that flow into
node inputs (`src/lsd_lemon/lsd_resting.py`, signature lines 21–23).
Numeric values are modelled as exact rationals. -/
structure LsdParams : Type where
  subject : String
  echo_space : Rat
  te_diff : Rat
  vol_to_remove : Int
  scans : List String
  epi_resolution : Rat
  tr : Rat
  highpass : Rat
  lowpass : Rat
  deriving Repr

/-- The node-input assignments `create_lsd_resting` performs before
connecting the graph. -/
structure LsdNodeInputs : Type where
  fmap_coreg_fs_subject_id : String
  fmap_coreg_echo_space : Rat
  fmap_coreg_te_diff : Rat
  remove_vol_t_min : Int
  scan_iterable_values : List String
  transform_ts_resolution : Rat
  denoise_highpass_sigma : Rat
  denoise_lowpass_sigma : Rat
  denoise_tr : Rat
  deriving Repr

/-- The parameter-to-node-input assignments of `create_lsd_resting`,
transcribed from `src/lsd_lemon/lsd_resting.py` lines 37, 78, 86–100:
every parameter is stored directly except the denoise cutoffs, which are
assigned as `1./(2*TR*highpass)` and `1./(2*TR*lowpass)`. -/
def create_lsd_resting_inputs (p : LsdParams) : LsdNodeInputs :=
  { fmap_coreg_fs_subject_id := p.subject
    fmap_coreg_echo_space := p.echo_space
    fmap_coreg_te_diff := p.te_diff
    remove_vol_t_min := p.vol_to_remove
    scan_iterable_values := p.scans
    transform_ts_resolution := p.epi_resolution
    denoise_highpass_sigma := 1 / (2 * p.tr * p.highpass)
    denoise_lowpass_sigma := 1 / (2 * p.tr * p.lowpass)
    denoise_tr := p.tr }

/-- A concrete parameter assignment used to exhibit the denoise-cutoff
transformation. -/
def paramsA : LsdParams :=
  { subject := "sub1", echo_space := 6/10000, te_diff := 246/100,
    vol_to_remove := 5, scans := ["rest1a", "rest1b", "rest2a", "rest2b"],
    epi_resolution := 3, tr := 1, highpass := 1, lowpass := 1 }

/-- The `DataSink` substitution list of `create_lsd_resting`
(`src/lsd_lemon/lsd_resting.py` lines 105–120), in declaration order. -/
def lsd_substitutions : List (String × String) :=
  [("fmap1_phase_fslprepared", "fieldmap"),
   ("fmap2_phase_fslprepared", "fieldmap"),
   ("fieldmap_fslprepared_fieldmap_unmasked_vsm", "shiftmap"),
   ("plot.rest_coregistered", "outlier_plot"),
   ("filter_motion_comp_norm_compcor_art_dmotion", "nuissance_matrix"),
   ("rest_realigned.nii.gz_abs.rms", "rest_realigned_abs.rms"),
   ("rest_realigned.nii.gz.par", "rest_realigned.par"),
   ("rest_realigned.nii.gz_rel.rms", "rest_realigned_rel.rms"),
   ("rest_realigned.nii.gz_abs_disp", "abs_displacement_plot"),
   ("rest_realigned.nii.gz_rel_disp", "rel_displacment_plot"),
   ("art.rest_coregistered_outliers", "outliers"),
   ("global_intensity.rest_coregistered", "global_intensity"),
   ("norm.rest_coregistered", "composite_norm"),
   ("stats.rest_coregistered", "stats"),
   ("rest_denoised_bandpassed_norm.nii.gz", "rest_preprocessed.nii.gz")]

/-- Does the pattern occur as a contiguous sublist of the text? -/
def occursIn (pat : List Char) : List Char → Bool
  | [] => pat.isEmpty
  | c :: rest => List.isPrefixOf pat (c :: rest) || occursIn pat rest

/-- Substring occurrence test used as a rename rule's match condition. -/
def strContains (s pat : String) : Bool :=
  occursIn pat.data s.data

/-- Modelled from the spec: the sink applies its ordered rename-rule list
to a base filename with first-match-wins — the first rule whose pattern
occurs in the name is applied (replacing every occurrence of the
pattern), and no later rule is considered for that file. -/
def applyRenameRules : List (String × String) → String → String
  | [], s => s
  | (pat, rep) :: rest, s =>
    if strContains s pat then s.replace pat rep else applyRenameRules rest s

/-- The nodes of the `lsd_resting` workflow with their join-node flag:
the only `JoinNode` in the source (`concatenate`) is commented out, so no
node of the constructed graph is a Join Point. -/
def lsd_nodes : List (String × Bool) :=
  [("scan_infosource", false), ("fmap_infosource", false), ("selectfiles", false),
   ("remove_vol", false), ("moco", false), ("fmap_coreg", false),
   ("transform_ts", false), ("denoise", false), ("sink", false)]

/-- The `func_preproc.connect` edge list of `create_lsd_resting`
(`src/lsd_lemon/lsd_resting.py` lines 124–186), one entry per port
binding `(source node, source port, destination node, destination port)`;
bindings commented out in the source are omitted. -/
def lsd_connections : List (String × String × String × String) :=
  [("scan_infosource", "scan_id", "selectfiles", "scan_id"),
   ("scan_infosource", "scan_id", "fmap_infosource", "scan_id"),
   ("fmap_infosource", "fmap_id", "selectfiles", "fmap_id"),
   ("fmap_infosource", "pe_dir", "fmap_coreg", "inputnode.pe_dir"),
   ("scan_infosource", "scan_id", "sink", "container"),
   ("selectfiles", "func", "remove_vol", "in_file"),
   ("remove_vol", "out_file", "moco", "inputnode.epi"),
   ("selectfiles", "fmap_phase", "fmap_coreg", "inputnode.phase"),
   ("selectfiles", "fmap_mag", "fmap_coreg", "inputnode.mag"),
   ("selectfiles", "anat_head", "fmap_coreg", "inputnode.anat_head"),
   ("selectfiles", "anat_brain", "fmap_coreg", "inputnode.anat_brain"),
   ("moco", "outputnode.epi_mean", "fmap_coreg", "inputnode.epi_mean"),
   ("remove_vol", "out_file", "transform_ts", "inputnode.orig_ts"),
   ("selectfiles", "anat_head", "transform_ts", "inputnode.anat_head"),
   ("moco", "outputnode.mat_moco", "transform_ts", "inputnode.mat_moco"),
   ("fmap_coreg", "outputnode.fmap_fullwarp", "transform_ts", "inputnode.fullwarp"),
   ("selectfiles", "func_mask", "denoise", "inputnode.brain_mask"),
   ("selectfiles", "anat_brain", "denoise", "inputnode.anat_brain"),
   ("fmap_coreg", "outputnode.epi2anat_dat", "denoise", "inputnode.epi2anat_dat"),
   ("fmap_coreg", "outputnode.unwarped_mean_epi2fmap", "denoise", "inputnode.unwarped_mean"),
   ("moco", "outputnode.par_moco", "denoise", "inputnode.moco_par"),
   ("transform_ts", "outputnode.trans_ts", "denoise", "inputnode.epi_coreg"),
   ("moco", "outputnode.par_moco", "sink", "realign.@par"),
   ("moco", "outputnode.rms_moco", "sink", "realign.@rms"),
   ("moco", "outputnode.mat_moco", "sink", "realign.MAT.@mat"),
   ("moco", "outputnode.epi_mean", "sink", "realign.@mean"),
   ("moco", "outputnode.rotplot", "sink", "realign.plots.@rotplot"),
   ("moco", "outputnode.transplot", "sink", "realign.plots.@transplot"),
   ("moco", "outputnode.dispplots", "sink", "realign.plots.@dispplots"),
   ("moco", "outputnode.tsnr_file", "sink", "realign.@tsnr"),
   ("fmap_coreg", "outputnode.fmap", "sink", "coregister.transforms2anat.@fmap"),
   ("fmap_coreg", "outputnode.unwarped_mean_epi2fmap", "sink", "coregister.@unwarped_mean_epi2fmap"),
   ("fmap_coreg", "outputnode.epi2fmap", "sink", "coregister.@epi2fmap"),
   ("fmap_coreg", "outputnode.fmap_fullwarp", "sink", "coregister.transforms2anat.@fmap_fullwarp"),
   ("fmap_coreg", "outputnode.epi2anat", "sink", "coregister.@epi2anat"),
   ("fmap_coreg", "outputnode.epi2anat_mat", "sink", "coregister.transforms2anat.@epi2anat_mat"),
   ("fmap_coreg", "outputnode.epi2anat_dat", "sink", "coregister.transforms2anat.@epi2anat_dat"),
   ("fmap_coreg", "outputnode.epi2anat_mincost", "sink", "coregister.@epi2anat_mincost"),
   ("transform_ts", "outputnode.trans_ts_mean", "sink", "coregister.@full_transform_mean"),
   ("transform_ts", "outputnode.resamp_brain", "sink", "coregister.@resamp_brain"),
   ("denoise", "outputnode.wmcsf_mask", "sink", "denoise.mask.@wmcsf_masks"),
   ("denoise", "outputnode.combined_motion", "sink", "denoise.artefact.@combined_motion"),
   ("denoise", "outputnode.outlier_files", "sink", "denoise.artefact.@outlier"),
   ("denoise", "outputnode.intensity_files", "sink", "denoise.artefact.@intensity"),
   ("denoise", "outputnode.outlier_stats", "sink", "denoise.artefact.@outlierstats"),
   ("denoise", "outputnode.outlier_plots", "sink", "denoise.artefact.@outlierplots"),
   ("denoise", "outputnode.mc_regressor", "sink", "denoise.regress.@mc_regressor"),
   ("denoise", "outputnode.comp_regressor", "sink", "denoise.regress.@comp_regressor"),
   ("denoise", "outputnode.mc_F", "sink", "denoise.regress.@mc_F"),
   ("denoise", "outputnode.mc_pF", "sink", "denoise.regress.@mc_pF"),
   ("denoise", "outputnode.comp_F", "sink", "denoise.regress.@comp_F"),
   ("denoise", "outputnode.comp_pF", "sink", "denoise.regress.@comp_pF"),
   ("denoise", "outputnode.brain_mask_resamp", "sink", "denoise.mask.@brain_resamp"),
   ("denoise", "outputnode.brain_mask2epi", "sink", "denoise.mask.@brain_mask2epi"),
   ("denoise", "outputnode.normalized_file", "sink", "@normalized")]

/-- Modelled from the spec: a sink destination path
`destinationRoot/containerPath/<relative components>`, kept as a
component list so distinct containers give disjoint destinations. -/
def sinkDest (root container : String) (rel : List String) : List String :=
  root :: container :: rel

/-- `scan_infosource.iterables = ('scan_id', scans)` from
`src/lsd_lemon/lsd_resting.py` line 37. -/
def scan_infosource_iterables (scans : List String) : String × List String :=
  ("scan_id", scans)

/-- Modelled from the spec: iterable expansion clones every downstream
node once per value, with clone identity `(original node name, value)`. -/
def expandIterable (values : List String) (nodes : List String) : List (String × String) :=
  nodes.flatMap (fun n => values.map (fun v => (n, v)))

/-- Modelled from the spec: a clone's working directory path embeds the
iteration value (component list: base, node name, value). -/
def cloneWorkdir (base : String) (c : String × String) : List String :=
  [base, c.1, c.2]

/-- `func_preproc.config['execution']['crashdump_dir'] = func_preproc.base_dir + "/crash_files"`
from `src/lsd_lemon/lsd_resting.py` line 28. -/
def crashdump_dir (working_dir : String) : String :=
  working_dir ++ "/crash_files"

/-- Executor state, modelled from the spec: disjoint status lists and the
crash records written so far (directory, node). -/
structure ExecState : Type where
  completed : List String
  failed : List String
  blocked : List String
  crashRecords : List (String × String)
  deriving DecidableEq, Repr

/-- A node may start only when every dependency edge into it comes from a
completed node. -/
def depsSatisfied (deps : List (String × String)) (completed : List String) (n : String) : Bool :=
  deps.all (fun e => e.2 ≠ n ∨ e.1 ∈ completed)

/-- Modelled from the spec: process one node.  If some upstream producer
is not completed the node is blocked; otherwise it runs, and on failure a
crash record is stored in the configured crash-dump directory. -/
def execStep (wd : String) (oracle : String → Bool) (deps : List (String × String))
    (st : ExecState) (n : String) : ExecState :=
  if depsSatisfied deps st.completed n then
    if oracle n then
      { st with failed := st.failed ++ [n],
                crashRecords := st.crashRecords ++ [(crashdump_dir wd, n)] }
    else { st with completed := st.completed ++ [n] }
  else { st with blocked := st.blocked ++ [n] }

/-- Modelled from the spec: run the remaining nodes in order, never
stopping at a failure. -/
def executeFrom (wd : String) (oracle : String → Bool) (deps : List (String × String)) :
    ExecState → List String → ExecState
  | st, [] => st
  | st, n :: rest => executeFrom wd oracle deps (execStep wd oracle deps st n) rest

/-- Modelled from the spec: execute a dependency-ordered node list from
the empty state. -/
def execute (wd : String) (oracle : String → Bool) (deps : List (String × String))
    (order : List String) : ExecState :=
  executeFrom wd oracle deps { completed := [], failed := [], blocked := [], crashRecords := [] } order

/-- `DependsOn deps a b`: node `b` transitively depends on node `a`
through the dependency edges `deps` (an edge `(a, b)` feeds `a`'s output
into `b`). -/
inductive DependsOn (deps : List (String × String)) : String → String → Prop
  | direct {a b : String} : (a, b) ∈ deps → DependsOn deps a b
  | step {a b c : String} : (a, b) ∈ deps → DependsOn deps b c → DependsOn deps a c

/-- A node is safe when neither it nor any node it transitively depends
on fails. -/
def Safe (deps : List (String × String)) (oracle : String → Bool) (n : String) : Prop :=
  oracle n = false ∧ ∀ m, DependsOn deps m n → oracle m = false

/-- Topological-order condition for a node list: no dependency edge's
source occurs at or after its destination. -/
def TopoOrdered (deps : List (String × String)) (order : List String) : Prop :=
  ∀ e ∈ deps, ∀ l₁ l₂, order = l₁ ++ e.2 :: l₂ → e.1 ∉ l₂ ∧ e.1 ≠ e.2

/-! ### Buffer lemmas -/

theorem getD_replicate_zero (n p : Nat) : (List.replicate n (0 : Int)).getD p 0 = 0 := by
  induction n generalizing p with
  | zero => simp
  | succ m ih => cases p <;> simp [List.replicate, ih]

theorem resizeFlat_length (l : List Int) (n : Nat) : (resizeFlat l n).length = n := by
  simp [resizeFlat, List.length_take]
  omega

theorem resizeFlat_cons (a : Int) (t : List Int) (m : Nat) :
    resizeFlat (a :: t) (m + 1) = a :: resizeFlat t m := by
  simp [resizeFlat, List.take_succ_cons, Nat.succ_sub_succ]

theorem resizeFlat_getD (l : List Int) (n p : Nat) (hp : p < n) :
    (resizeFlat l n).getD p 0 = if p < l.length then l.getD p 0 else 0 := by
  induction l generalizing n p with
  | nil => simp [resizeFlat, getD_replicate_zero]
  | cons a t ih =>
    cases n with
    | zero => omega
    | succ m =>
      rw [resizeFlat_cons]
      cases p with
      | zero => simp
      | succ q =>
        have hq : q < m := by omega
        rw [List.getD_cons_succ, List.getD_cons_succ, ih m q hq, List.length_cons]
        split_ifs with h1 h2 <;> first | rfl | omega

theorem setFrom_length (s len i : Nat) (l : List Int) :
    (setFrom s len i l).length = l.length := by
  induction l generalizing i with
  | nil => rfl
  | cons a t ih => simp [setFrom, ih]

theorem setFrom_getD (s len : Nat) (l : List Int) (i p : Nat) :
    (setFrom s len i l).getD p 0 =
      if s ≤ i + p ∧ i + p < s + len ∧ p < l.length then 1 else l.getD p 0 := by
  induction l generalizing i p with
  | nil => simp [setFrom]
  | cons a t ih =>
    cases p with
    | zero =>
      simp only [setFrom, List.getD_cons_zero, Nat.add_zero]
      have h0 : (0 : Nat) < t.length + 1 := Nat.succ_pos _
      by_cases h1 : s ≤ i <;> by_cases h2 : i < s + len <;>
        simp [h1, h2, h0, List.length_cons]
    | succ q =>
      simp only [setFrom, List.getD_cons_succ, ih, List.length_cons]
      split_ifs with h1 h2 <;> first | rfl | omega

theorem setRange_length (l : List Int) (s len : Nat) :
    (setRange l s len).length = l.length :=
  setFrom_length s len 0 l

theorem setRange_getD (l : List Int) (s len p : Nat) :
    (setRange l s len).getD p 0 =
      if s ≤ p ∧ p < s + len ∧ p < l.length then 1 else l.getD p 0 := by
  simpa [setRange] using setFrom_getD s len l 0 p

theorem applyVertices_ok (xz T : Nat) (mask : List Int) (vs : List Nat)
    (hvs : ∀ v ∈ vs, v < xz) :
    ∃ res, applyVertices xz T mask vs = .ok res ∧ res.length = mask.length ∧
      ∀ p, res.getD p 0 =
        if ∃ v ∈ vs, v * T ≤ p ∧ p < v * T + T ∧ p < mask.length then 1
        else mask.getD p 0 := by
  induction vs generalizing mask with
  | nil => exact ⟨mask, rfl, rfl, by simp [applyVertices]⟩
  | cons v vs ih =>
    have hv : v < xz := hvs v (List.mem_cons_self v vs)
    obtain ⟨res, hok, hlen, hchar⟩ :=
      ih (setRange mask (v * T) T) (fun w hw => hvs w (List.mem_cons_of_mem v hw))
    refine ⟨res, ?_, ?_, ?_⟩
    · simp [applyVertices, hv, hok]
    · rw [hlen, setRange_length]
    · intro p
      rw [hchar p, setRange_getD]
      simp only [setRange_length, List.mem_cons, exists_eq_or_imp]
      by_cases hA : ∃ w ∈ vs, w * T ≤ p ∧ p < w * T + T ∧ p < mask.length <;>
        by_cases hB : v * T ≤ p ∧ p < v * T + T ∧ p < mask.length <;>
          simp [hA, hB]

/-- `maskSurface` with hemisphere `"lh"`: the dispatch selects
`lhvertices` and the rest of the body runs on it. -/
theorem maskSurface_dispatch_lh (lhv rhv : List Nat) (vol : Volume) :
    maskSurface lhv rhv vol "lh" =
      match applyVertices (vol.dimX * vol.dimZ) vol.dimT
          (List.replicate
            (resizeFlat vol.data (vol.dimX * vol.dimZ * 1 * 1 * vol.dimT)).length 0)
          lhv with
      | .error e => .error e
      | .ok mask1 =>
        .ok { dimX := vol.dimX, dimY := vol.dimY, dimZ := vol.dimZ, dimT := vol.dimT,
              data := resizeFlat mask1 (vol.dimX * vol.dimY * vol.dimZ * vol.dimT),
              affine := vol.affine } := rfl

/-- `maskSurface` with hemisphere `"rh"`: the dispatch selects
`rhvertices`. -/
theorem maskSurface_dispatch_rh (lhv rhv : List Nat) (vol : Volume) :
    maskSurface lhv rhv vol "rh" =
      match applyVertices (vol.dimX * vol.dimZ) vol.dimT
          (List.replicate
            (resizeFlat vol.data (vol.dimX * vol.dimZ * 1 * 1 * vol.dimT)).length 0)
          rhv with
      | .error e => .error e
      | .ok mask1 =>
        .ok { dimX := vol.dimX, dimY := vol.dimY, dimZ := vol.dimZ, dimT := vol.dimT,
              data := resizeFlat mask1 (vol.dimX * vol.dimY * vol.dimZ * vol.dimT),
              affine := vol.affine } := rfl

/-- `maskSurface` with any other hemisphere string reaches the vertex
loop with `chosenvertices` unbound and raises `NameError`. -/
theorem maskSurface_dispatch_other (lhv rhv : List Nat) (vol : Volume) (hemi : String)
    (h1 : hemi ≠ "lh") (h2 : hemi ≠ "rh") :
    maskSurface lhv rhv vol hemi = .error .nameError := by
  unfold maskSurface
  rw [if_neg h1, if_neg h2]

/-- The body of a successful `maskSurface` run over an arbitrary
in-range vertex table: the final buffer has the input's total size and is
`1` exactly on the time samples of the listed vertices. -/
theorem maskSurface_run_char (table : List Nat) (X Y Z T : Nat) (dat : List Int)
    (hrange : ∀ v ∈ table, v < X * Z) :
    ∃ res, applyVertices (X * Z) T
        (List.replicate (resizeFlat dat (X * Z * 1 * 1 * T)).length 0) table = .ok res ∧
      (resizeFlat res (X * Y * Z * T)).length = X * Y * Z * T ∧
      ∀ p, p < X * Y * Z * T →
        (resizeFlat res (X * Y * Z * T)).getD p 0 =
          if p < X * Z * T ∧ p / T ∈ table then 1 else 0 := by
  have hm0 : (List.replicate (resizeFlat dat (X * Z * 1 * 1 * T)).length (0 : Int)) =
      List.replicate (X * Z * T) 0 := by
    rw [resizeFlat_length]; ring_nf
  rw [hm0]
  obtain ⟨res, hok, hlen, hchar⟩ :=
    applyVertices_ok (X * Z) T (List.replicate (X * Z * T) 0) table hrange
  have hres_len : res.length = X * Z * T := by
    rw [hlen, List.length_replicate]
  refine ⟨res, hok, resizeFlat_length .., ?_⟩
  intro p hp
  rw [resizeFlat_getD res (X * Y * Z * T) p hp, hres_len]
  by_cases hp1 : p < X * Z * T
  · have hT : 0 < T := by
      rcases Nat.eq_zero_or_pos T with h | h
      · subst h; simp at hp1
      · exact h
    rw [if_pos hp1, hchar p]
    simp only [List.length_replicate]
    have hiff : (∃ v ∈ table, v * T ≤ p ∧ p < v * T + T ∧ p < X * Z * T) ↔
        p / T ∈ table := by
      constructor
      · rintro ⟨v, hvmem, h1, h2, _⟩
        have hdiv : p / T = v :=
          Nat.div_eq_of_lt_le h1 (by rw [Nat.add_mul, Nat.one_mul]; exact h2)
        rwa [hdiv]
      · intro hmem
        refine ⟨p / T, hmem, Nat.div_mul_le_self p T, ?_, hp1⟩
        have h1 := Nat.div_add_mod p T
        have h2 := Nat.mod_lt p hT
        rw [Nat.mul_comm]
        omega
    by_cases hmem : p / T ∈ table
    · rw [if_pos (hiff.mpr hmem), if_pos ⟨hp1, hmem⟩]
    · rw [if_neg (fun h => hmem (hiff.mp h)), if_neg (fun h => hmem h.2),
        getD_replicate_zero]
  · rw [if_neg hp1, if_neg (fun h => hp1 h.1)]

/-- Full characterisation of a successful `maskSurface` run: when the
hemisphere is `"lh"` or `"rh"` and every vertex of the selected table is
below `X * Z`, the result has the input's shape and affine, and its flat
buffer is `1` exactly on the time samples of the selected vertices. -/
theorem maskSurface_ok_char (lhv rhv : List Nat) (vol : Volume) (hemi : String)
    (hh : hemi = "lh" ∨ hemi = "rh")
    (hrange : ∀ v ∈ (if hemi = "lh" then lhv else rhv), v < vol.dimX * vol.dimZ) :
    ∃ out, maskSurface lhv rhv vol hemi = .ok out ∧
      out.dimX = vol.dimX ∧ out.dimY = vol.dimY ∧ out.dimZ = vol.dimZ ∧
      out.dimT = vol.dimT ∧ out.affine = vol.affine ∧
      out.data.length = vol.dimX * vol.dimY * vol.dimZ * vol.dimT ∧
      ∀ p, p < vol.dimX * vol.dimY * vol.dimZ * vol.dimT →
        out.data.getD p 0 =
          if p < vol.dimX * vol.dimZ * vol.dimT ∧
             p / vol.dimT ∈ (if hemi = "lh" then lhv else rhv) then 1 else 0 := by
  rcases hh with h | h <;> subst h
  · obtain ⟨res, hok, hlen2, hchar2⟩ :=
      maskSurface_run_char lhv vol.dimX vol.dimY vol.dimZ vol.dimT vol.data
        (by simpa using hrange)
    refine ⟨{ dimX := vol.dimX, dimY := vol.dimY, dimZ := vol.dimZ, dimT := vol.dimT,
              data := resizeFlat res (vol.dimX * vol.dimY * vol.dimZ * vol.dimT),
              affine := vol.affine }, ?_, rfl, rfl, rfl, rfl, rfl, hlen2, ?_⟩
    · rw [maskSurface_dispatch_lh, hok]
    · simpa using hchar2
  · obtain ⟨res, hok, hlen2, hchar2⟩ :=
      maskSurface_run_char rhv vol.dimX vol.dimY vol.dimZ vol.dimT vol.data
        (by simpa using hrange)
    refine ⟨{ dimX := vol.dimX, dimY := vol.dimY, dimZ := vol.dimZ, dimT := vol.dimT,
              data := resizeFlat res (vol.dimX * vol.dimY * vol.dimZ * vol.dimT),
              affine := vol.affine }, ?_, rfl, rfl, rfl, rfl, rfl, hlen2, ?_⟩
    · rw [maskSurface_dispatch_rh, hok]
    · simpa using hchar2

theorem resizeFlat_self (l : List Int) : resizeFlat l l.length = l := by
  simp [resizeFlat]

theorem map_range_getD (l : List Int) :
    (List.range l.length).map (fun p => l.getD p 0) = l := by
  apply List.ext_getElem
  · simp
  · intro i h1 h2
    rw [List.getElem_map, List.getElem_range]
    exact List.getD_eq_getElem l 0 h2

/-- C1: for every input volume and hemisphere selector `"lh"` or `"rh"`
(the selected fixed vertex table lying within the first flattened
dimension), `maskSurface` returns a volume of the input's shape whose
buffer is `1` exactly at the time samples of the vertex indices listed in
the selected hemisphere's table and `0` at every other position, carrying
the input's affine unchanged. -/
theorem maskSurface_hemisphere_mask (lhv rhv : List Nat) (vol : Volume) (hemi : String)
    (hh : hemi = "lh" ∨ hemi = "rh")
    (hrange : ∀ v ∈ (if hemi = "lh" then lhv else rhv), v < vol.dimX * vol.dimZ) :
    ∃ out, maskSurface lhv rhv vol hemi = .ok out ∧
      out.dimX = vol.dimX ∧ out.dimY = vol.dimY ∧ out.dimZ = vol.dimZ ∧
      out.dimT = vol.dimT ∧ out.affine = vol.affine ∧
      out.data.length = vol.dimX * vol.dimY * vol.dimZ * vol.dimT ∧
      ∀ p, p < vol.dimX * vol.dimY * vol.dimZ * vol.dimT →
        out.data.getD p 0 =
          if p < vol.dimX * vol.dimZ * vol.dimT ∧
             p / vol.dimT ∈ (if hemi = "lh" then lhv else rhv) then 1 else 0 :=
  maskSurface_ok_char lhv rhv vol hemi hh hrange

/-- C1 witness: the shape-(2,1,2,1) volume `volA` with left table `[0, 2]`
yields the mask `[1, 0, 1, 0]` with `volA`'s affine. -/
theorem maskSurface_hemisphere_mask_witness :
    ∃ out, maskSurface [0, 2] [] volA "lh" = .ok out ∧
      out.dimX = volA.dimX ∧ out.dimY = volA.dimY ∧ out.dimZ = volA.dimZ ∧
      out.dimT = volA.dimT ∧ out.affine = volA.affine ∧
      out.data.length = volA.dimX * volA.dimY * volA.dimZ * volA.dimT ∧
      ∀ p, p < volA.dimX * volA.dimY * volA.dimZ * volA.dimT →
        out.data.getD p 0 =
          if p < volA.dimX * volA.dimZ * volA.dimT ∧
             p / volA.dimT ∈ (if "lh" = "lh" then [0, 2] else []) then 1 else 0 :=
  maskSurface_hemisphere_mask [0, 2] [] volA "lh" (Or.inl rfl) (by decide)

/-- C2 counterexample: for the selector `"xx"` the code fails with the
unbound-local `NameError`, not with the typed `UnsupportedHemisphereError`
named by the claim. -/
theorem maskSurface_unsupported_hemisphere_counterexample :
    maskSurface [0, 2] [] volA "xx" = .error PyErr.nameError ∧
      (Except.error PyErr.nameError : Except PyErr Volume) ≠
        .error PyErr.unsupportedHemisphere := by
  constructor
  · rfl
  · intro h
    injection h with h'
    exact PyErr.noConfusion h'

/-- C2 amended: for every selector other than `"lh"`/`"rh"` the run fails
with the unbound-variable `NameError` (there is no typed
`UnsupportedHemisphereError` in the code), and it succeeds, producing a
mask, exactly for `"lh"`/`"rh"` (given an in-range vertex table). -/
theorem maskSurface_failure_mode :
    (∀ lhv rhv vol hemi, hemi ≠ "lh" → hemi ≠ "rh" →
      maskSurface lhv rhv vol hemi = .error PyErr.nameError) ∧
    (∀ lhv rhv vol hemi, (hemi = "lh" ∨ hemi = "rh") →
      (∀ v ∈ (if hemi = "lh" then lhv else rhv), v < vol.dimX * vol.dimZ) →
      ∃ out, maskSurface lhv rhv vol hemi = .ok out) := by
  constructor
  · exact fun lhv rhv vol hemi h1 h2 => maskSurface_dispatch_other lhv rhv vol hemi h1 h2
  · intro lhv rhv vol hemi hh hrange
    obtain ⟨out, hok, _⟩ := maskSurface_ok_char lhv rhv vol hemi hh hrange
    exact ⟨out, hok⟩

/-- C2 witness: a failing selector and a succeeding `"rh"` run. -/
theorem maskSurface_failure_mode_witness :
    maskSurface [] [] volA "yy" = .error PyErr.nameError ∧
      ∃ out, maskSurface [] [1] volA "rh" = .ok out :=
  ⟨maskSurface_failure_mode.1 [] [] volA "yy" (by decide) (by decide),
   maskSurface_failure_mode.2 [] [1] volA "rh" (Or.inr rfl) (by decide)⟩

/-- C3 counterexample: on the shape-(2,2,1,1) volume `volB` the buffer
produced by the resize step differs from the element-preserving
row-major flattening over `X`,`Z` with the `Y` axis dropped. -/
theorem reinterpret_not_dropY_counterexample :
    reinterpretBuffer volB ≠ dropYFlatten volB := by decide

/-- C3 amended: the resize step trims (or zero-pads) the row-major
buffer to length `X*Z*T`; exactly in the `Y = 1` case this coincides with
the element-preserving reinterpretation as `(X*Z, 1, 1, T)` with the `Y`
axis dropped; and after the per-vertex assignment the mask is reshaped
back to the original `(X, Y, Z, T)` total size. -/
theorem reinterpret_buffer_semantics :
    (∀ vol, reinterpretBuffer vol =
      vol.data.take (vol.dimX * vol.dimZ * vol.dimT) ++
        List.replicate (vol.dimX * vol.dimZ * vol.dimT - vol.data.length) 0) ∧
    (∀ vol : Volume, vol.dimY = 1 →
      vol.data.length = vol.dimX * vol.dimY * vol.dimZ * vol.dimT →
      reinterpretBuffer vol = dropYFlatten vol) ∧
    (∀ lhv rhv vol hemi out, maskSurface lhv rhv vol hemi = .ok out →
      out.dimX = vol.dimX ∧ out.dimY = vol.dimY ∧ out.dimZ = vol.dimZ ∧
      out.dimT = vol.dimT ∧
      out.data.length = vol.dimX * vol.dimY * vol.dimZ * vol.dimT) := by
  refine ⟨?_, ?_, ?_⟩
  · intro vol
    simp [reinterpretBuffer, resizeFlat]
  · intro vol h1 hlen
    have hn : vol.dimX * vol.dimZ * 1 * 1 * vol.dimT = vol.data.length := by
      rw [hlen, h1]; ring
    unfold reinterpretBuffer dropYFlatten
    rw [hn, resizeFlat_self]
    simp only [h1, one_mul, Nat.div_add_mod']
    have hn2 : vol.dimX * vol.dimZ * vol.dimT = vol.data.length := by
      rw [hlen, h1]; ring
    rw [hn2, map_range_getD]
  · intro lhv rhv vol hemi out hok
    by_cases h1 : hemi = "lh"
    · subst h1
      rw [maskSurface_dispatch_lh] at hok
      rcases happ : applyVertices (vol.dimX * vol.dimZ) vol.dimT
          (List.replicate
            (resizeFlat vol.data (vol.dimX * vol.dimZ * 1 * 1 * vol.dimT)).length 0)
          lhv with e | mask1
      · rw [happ] at hok; exact absurd hok (by simp)
      · rw [happ] at hok
        injection hok with h
        subst h
        exact ⟨rfl, rfl, rfl, rfl, resizeFlat_length ..⟩
    · by_cases h2 : hemi = "rh"
      · subst h2
        rw [maskSurface_dispatch_rh] at hok
        rcases happ : applyVertices (vol.dimX * vol.dimZ) vol.dimT
            (List.replicate
              (resizeFlat vol.data (vol.dimX * vol.dimZ * 1 * 1 * vol.dimT)).length 0)
            rhv with e | mask1
        · rw [happ] at hok; exact absurd hok (by simp)
        · rw [happ] at hok
          injection hok with h
          subst h
          exact ⟨rfl, rfl, rfl, rfl, resizeFlat_length ..⟩
      · rw [maskSurface_dispatch_other lhv rhv vol hemi h1 h2] at hok
        exact absurd hok (by simp)

/-- C3 witness: on the `Y = 1` volume `volA` the resize step is exactly
the drop-`Y` flattening. -/
theorem reinterpret_buffer_semantics_witness :
    reinterpretBuffer volA = dropYFlatten volA :=
  reinterpret_buffer_semantics.2.1 volA (by decide) (by decide)

/-- C9: `fmap_info` maps the four scan identifiers to their
(fieldmap id, phase-encode direction) pairs and fails with the
unbound-variable `NameError` on every other identifier. -/
theorem fmap_info_spec :
    fmap_info "rest1a" = .ok ("fmap1", "y-") ∧
    fmap_info "rest1b" = .ok ("fmap1", "y") ∧
    fmap_info "rest2a" = .ok ("fmap2", "y-") ∧
    fmap_info "rest2b" = .ok ("fmap2", "y") ∧
    ∀ s, s ≠ "rest1a" → s ≠ "rest1b" → s ≠ "rest2a" → s ≠ "rest2b" →
      fmap_info s = .error PyErr.nameError := by
  refine ⟨rfl, rfl, rfl, rfl, ?_⟩
  intro s h1 h2 h3 h4
  unfold fmap_info
  rw [if_neg h1, if_neg h2, if_neg h3, if_neg h4]

/-- C9 witness: the unlisted identifier `"rest3a"` fails with
`NameError`. -/
theorem fmap_info_spec_witness :
    fmap_info "rest3a" = .error PyErr.nameError :=
  fmap_info_spec.2.2.2.2 "rest3a" (by decide) (by decide) (by decide) (by decide)

/-- C10: the declared output port `surface_mask` is never populated by
`_list_outputs` (it stays undefined), while the result file is assigned
to the undeclared key `mask_surface`. -/
theorem mask_surface_output_key_mismatch :
    "surface_mask" ∈ maskSurfaceOutputSpecFields ∧
    maskSurfaceListOutputs.lookup "surface_mask" = some none ∧
    maskSurfaceListOutputs.lookup "mask_surface" = some (some "surfacemask.nii") ∧
    "mask_surface" ∉ maskSurfaceOutputSpecFields := by decide

/-- C4 counterexample: with `paramsA` (`TR = 1`, `highpass = 1`) the
denoise node's highpass input is `1/2`, not the supplied cutoff `1`: the
core does perform arithmetic on the repetition time and the
highpass/lowpass cutoffs. -/
theorem lsd_params_transformed_counterexample :
    (create_lsd_resting_inputs paramsA).denoise_highpass_sigma ≠ paramsA.highpass := by
  norm_num [create_lsd_resting_inputs, paramsA]

/-- C4 amended: subject, echo spacing, echo-time difference,
volumes-to-discard, scan identifiers, target resolution and repetition
time are passed into their node inputs unmodified, while the highpass and
lowpass cutoffs are transformed into sigma values `1/(2*TR*cutoff)`
before assignment. -/
theorem lsd_params_passthrough :
    ∀ p : LsdParams,
      (create_lsd_resting_inputs p).fmap_coreg_fs_subject_id = p.subject ∧
      (create_lsd_resting_inputs p).fmap_coreg_echo_space = p.echo_space ∧
      (create_lsd_resting_inputs p).fmap_coreg_te_diff = p.te_diff ∧
      (create_lsd_resting_inputs p).remove_vol_t_min = p.vol_to_remove ∧
      (create_lsd_resting_inputs p).scan_iterable_values = p.scans ∧
      (create_lsd_resting_inputs p).transform_ts_resolution = p.epi_resolution ∧
      (create_lsd_resting_inputs p).denoise_tr = p.tr ∧
      (create_lsd_resting_inputs p).denoise_highpass_sigma = 1 / (2 * p.tr * p.highpass) ∧
      (create_lsd_resting_inputs p).denoise_lowpass_sigma = 1 / (2 * p.tr * p.lowpass) :=
  fun _ => ⟨rfl, rfl, rfl, rfl, rfl, rfl, rfl, rfl, rfl⟩

theorem applyRenameRules_no_match (rules : List (String × String)) (s : String)
    (h : ∀ pr ∈ rules, strContains s pr.1 = false) :
    applyRenameRules rules s = s := by
  induction rules with
  | nil => rfl
  | cons r rest ih =>
    have h1 : strContains s r.1 = false := h r (List.mem_cons_self r rest)
    have h2 : applyRenameRules rest s = s :=
      ih (fun pr hpr => h pr (List.mem_cons_of_mem r hpr))
    rcases r with ⟨pat, rep⟩
    simp only [applyRenameRules, h1]
    simpa using h2

theorem applyRenameRules_first (pre : List (String × String)) (pat rep : String)
    (post : List (String × String)) (s : String)
    (hpre : ∀ pr ∈ pre, strContains s pr.1 = false)
    (hmatch : strContains s pat = true) :
    applyRenameRules (pre ++ (pat, rep) :: post) s = s.replace pat rep := by
  induction pre with
  | nil => simp [applyRenameRules, hmatch]
  | cons r rest ih =>
    have h1 : strContains s r.1 = false := hpre r (List.mem_cons_self r rest)
    rcases r with ⟨pat0, rep0⟩
    simp only [List.cons_append, applyRenameRules, h1]
    simpa using ih (fun pr hpr => hpre pr (List.mem_cons_of_mem _ hpr))

/-- C5 (rename application modelled from the spec, rule list from the
source): `lsd_substitutions` is an ordered (pattern, replacement) list;
a file matching no pattern is unchanged, and for a file whose first
matching rule is `(pat, rep)` exactly that one rule is applied — the
result equals applying the single-rule list `[(pat, rep)]`. -/
theorem rename_rules_first_match_wins :
    (∀ s, (∀ pr ∈ lsd_substitutions, strContains s pr.1 = false) →
      applyRenameRules lsd_substitutions s = s) ∧
    (∀ s pre pat rep post,
      lsd_substitutions = pre ++ (pat, rep) :: post →
      (∀ pr ∈ pre, strContains s pr.1 = false) →
      strContains s pat = true →
      applyRenameRules lsd_substitutions s = s.replace pat rep ∧
      applyRenameRules lsd_substitutions s = applyRenameRules [(pat, rep)] s) := by
  constructor
  · exact fun s h => applyRenameRules_no_match lsd_substitutions s h
  · intro s pre pat rep post hdecomp hpre hmatch
    rw [hdecomp]
    refine ⟨applyRenameRules_first pre pat rep post s hpre hmatch, ?_⟩
    rw [applyRenameRules_first pre pat rep post s hpre hmatch]
    simp [applyRenameRules, hmatch]

/-- C5 witness: the first rule is the first match for the prepared
phase-map file name and is the only rule applied. -/
theorem rename_rules_first_match_wins_witness :
    applyRenameRules lsd_substitutions "fmap1_phase_fslprepared.nii.gz" =
      String.replace "fmap1_phase_fslprepared.nii.gz" "fmap1_phase_fslprepared" "fieldmap" ∧
    applyRenameRules lsd_substitutions "fmap1_phase_fslprepared.nii.gz" =
      applyRenameRules [("fmap1_phase_fslprepared", "fieldmap")]
        "fmap1_phase_fslprepared.nii.gz" :=
  rename_rules_first_match_wins.2 "fmap1_phase_fslprepared.nii.gz" []
    "fmap1_phase_fslprepared" "fieldmap" lsd_substitutions.tail rfl
    (by simp) (by decide)

/-- C6: no node of the constructed workflow is a Join Point (the only
`JoinNode` in the source is commented out), the sink's `container` input
is bound to the iterated `scan_id`, and sink destinations under distinct
containers are always distinct, so clones of distinct iteration values
never overwrite each other's outputs. -/
theorem sink_container_isolation :
    (∀ n ∈ lsd_nodes, n.2 = false) ∧
    ("scan_infosource", "scan_id", "sink", "container") ∈ lsd_connections ∧
    (∀ root c₁ c₂ r₁ r₂, c₁ ≠ c₂ → sinkDest root c₁ r₁ ≠ sinkDest root c₂ r₂) := by
  refine ⟨by decide, by decide, ?_⟩
  intro root c₁ c₂ r₁ r₂ hne h
  unfold sinkDest at h
  injection h with h1 h2
  injection h2 with h3 h4
  exact hne h3

/-- C6 witness: destinations for two distinct scan identifiers are
distinct. -/
theorem sink_container_isolation_witness :
    sinkDest "/out" "rest1a" ["rest.nii"] ≠ sinkDest "/out" "rest1b" ["rest.nii"] :=
  sink_container_isolation.2.2 "/out" "rest1a" "rest1b" ["rest.nii"] ["rest.nii"]
    (by decide)

theorem filter_map_pair_eq (n : String) (values : List String) :
    (values.map (fun v => (n, v))).filter (fun c => c.1 == n) =
      values.map (fun v => (n, v)) := by
  induction values with
  | nil => rfl
  | cons v vs ih => simp [List.filter, ih]

theorem filter_map_pair_ne (m n : String) (h : m ≠ n) (values : List String) :
    (values.map (fun v => (m, v))).filter (fun c => c.1 == n) = [] := by
  have hb : (m == n) = false := by simp [h]
  induction values with
  | nil => rfl
  | cons v vs ih => simp [List.filter, ih, hb]

theorem expandIterable_cons (values : List String) (m : String) (rest : List String) :
    expandIterable values (m :: rest) =
      values.map (fun v => (m, v)) ++ expandIterable values rest := by
  simp [expandIterable]

theorem expandIterable_filter_nil (n : String) (values : List String) :
    ∀ ns : List String, n ∉ ns →
      (expandIterable values ns).filter (fun c => c.1 == n) = [] := by
  intro ns
  induction ns with
  | nil => intro _; rfl
  | cons m rest ih =>
    intro hmem
    have hm : m ≠ n := fun h => hmem (h ▸ List.mem_cons_self m rest)
    have hrest : n ∉ rest := fun h => hmem (List.mem_cons_of_mem m h)
    rw [expandIterable_cons, List.filter_append, filter_map_pair_ne m n hm, ih hrest,
      List.append_nil]

theorem expandIterable_filter_eq (values : List String) :
    ∀ nodes : List String, nodes.Nodup → ∀ n ∈ nodes,
      (expandIterable values nodes).filter (fun c => c.1 == n) =
        values.map (fun v => (n, v)) := by
  intro nodes
  induction nodes with
  | nil => intro _ n hn; cases hn
  | cons m rest ih =>
    intro hnodup n hn
    rcases List.mem_cons.mp hn with h | h
    · subst h
      have hrest : n ∉ rest := (List.nodup_cons.mp hnodup).1
      rw [expandIterable_cons, List.filter_append, filter_map_pair_eq,
        expandIterable_filter_nil n values rest hrest, List.append_nil]
    · have hm : m ≠ n := by
        rintro rfl
        exact (List.nodup_cons.mp hnodup).1 h
      rw [expandIterable_cons, List.filter_append, filter_map_pair_ne m n hm,
        ih (List.nodup_cons.mp hnodup).2 n h, List.nil_append]

/-- C7 (expansion semantics modelled from the spec): for a finite ordered
value sequence, each downstream node of the iterable source is cloned
exactly once per value, in value order, with clone identity
`(node name, value)`, and working directories of distinct clones are
pairwise distinct because each embeds the iteration value. -/
theorem iterable_expansion_clones (values nodes : List String) (n : String)
    (hnodup : nodes.Nodup) (hn : n ∈ nodes) :
    ((expandIterable values nodes).filter (fun c => c.1 == n) =
      values.map (fun v => (n, v))) ∧
    (∀ base c c', c ≠ c' → cloneWorkdir base c ≠ cloneWorkdir base c') := by
  constructor
  · exact expandIterable_filter_eq values nodes hnodup n hn
  · intro base c c' hne h
    unfold cloneWorkdir at h
    injection h with h1 h2
    injection h2 with h3 h4
    injection h4 with h5 h6
    exact hne (Prod.ext h3 h5)

/-- C7 witness: three values give exactly three clones of a node, in
value order, and two clones of one node for different values have
different working directories. -/
theorem iterable_expansion_clones_witness :
    ((expandIterable ["a", "b", "c"] ["moco", "denoise"]).filter
        (fun c => c.1 == "moco") =
      [("moco", "a"), ("moco", "b"), ("moco", "c")]) ∧
    cloneWorkdir "/wd" ("moco", "a") ≠ cloneWorkdir "/wd" ("moco", "b") := by
  have h := iterable_expansion_clones ["a", "b", "c"] ["moco", "denoise"] "moco"
    (by decide) (by decide)
  exact ⟨h.1, h.2 "/wd" ("moco", "a") ("moco", "b") (by decide)⟩

theorem execStep_completed_subset (wd : String) (oracle : String → Bool)
    (deps : List (String × String)) (st : ExecState) (n x : String)
    (hx : x ∈ st.completed) : x ∈ (execStep wd oracle deps st n).completed := by
  unfold execStep
  split_ifs <;> simp [hx]

theorem executeFrom_completed_mono (wd : String) (oracle : String → Bool)
    (deps : List (String × String)) :
    ∀ (l : List String) (st : ExecState) (x : String),
      x ∈ st.completed → x ∈ (executeFrom wd oracle deps st l).completed := by
  intro l
  induction l with
  | nil => intro st x hx; exact hx
  | cons n rest ih =>
    intro st x hx
    exact ih (execStep wd oracle deps st n) x
      (execStep_completed_subset wd oracle deps st n x hx)

theorem executeFrom_crash_records (wd : String) (oracle : String → Bool)
    (deps : List (String × String)) :
    ∀ (l : List String) (st : ExecState),
      (∀ x ∈ st.failed, (crashdump_dir wd, x) ∈ st.crashRecords) →
      ∀ x ∈ (executeFrom wd oracle deps st l).failed,
        (crashdump_dir wd, x) ∈ (executeFrom wd oracle deps st l).crashRecords := by
  intro l
  induction l with
  | nil => intro st h; exact h
  | cons n rest ih =>
    intro st h
    apply ih
    intro x hx
    unfold execStep at hx ⊢
    split_ifs at hx ⊢ with h1 h2
    · simp only [List.mem_append, List.mem_singleton] at hx
      simp only [List.mem_append, List.mem_singleton]
      rcases hx with hx | hx
      · exact Or.inl (h x hx)
      · subst hx
        exact Or.inr rfl
    · exact h x hx
    · exact h x hx

theorem dependsOn_snoc {deps : List (String × String)} {a b c : String}
    (h : DependsOn deps a b) (hbc : (b, c) ∈ deps) : DependsOn deps a c := by
  induction h with
  | direct hab => exact DependsOn.step hab (DependsOn.direct hbc)
  | step hab hb ih => exact DependsOn.step hab (ih hbc)

theorem safe_of_dep (deps : List (String × String)) (oracle : String → Bool)
    (m n : String) (hmn : (m, n) ∈ deps) (hs : Safe deps oracle n) :
    Safe deps oracle m :=
  ⟨hs.2 m (DependsOn.direct hmn), fun k hk => hs.2 k (dependsOn_snoc hk hmn)⟩

theorem executeFrom_safe_completed (wd : String) (oracle : String → Bool)
    (deps : List (String × String)) :
    ∀ (l : List String) (st : ExecState),
      (∀ e ∈ deps, ∀ l₁ l₂, l = l₁ ++ e.2 :: l₂ → e.1 ∉ l₂ ∧ e.1 ≠ e.2) →
      (∀ e ∈ deps, e.2 ∈ l → e.1 ∈ l ∨ (Safe deps oracle e.2 → e.1 ∈ st.completed)) →
      ∀ n ∈ l, Safe deps oracle n → n ∈ (executeFrom wd oracle deps st l).completed := by
  intro l
  induction l with
  | nil => intro st _ _ n hn; cases hn
  | cons a rest ih =>
    intro st htopo hdone n hn hsafe
    have hsrc : ∀ e ∈ deps, e.2 = a → Safe deps oracle a → e.1 ∈ st.completed := by
      intro e he h2 hsafea
      have h3 := htopo e he [] rest (by rw [h2, List.nil_append])
      have h4 := hdone e he (by rw [h2]; exact List.mem_cons_self a rest)
      rcases h4 with h4 | h4
      · exfalso
        rcases List.mem_cons.mp h4 with h5 | h5
        · exact h3.2 (h5.trans h2.symm)
        · exact h3.1 h5
      · rw [h2] at h4
        exact h4 hsafea
    have hstepa : Safe deps oracle a →
        (execStep wd oracle deps st a).completed = st.completed ++ [a] := by
      intro hsafea
      have hsat : depsSatisfied deps st.completed a = true := by
        unfold depsSatisfied
        rw [List.all_eq_true]
        intro e he
        simp only [decide_eq_true_eq]
        by_cases h2 : e.2 = a
        · exact Or.inr (hsrc e he h2 hsafea)
        · exact Or.inl h2
      unfold execStep
      rw [if_pos hsat, if_neg (by simp [hsafea.1])]
    show n ∈ (executeFrom wd oracle deps (execStep wd oracle deps st a) rest).completed
    rcases List.mem_cons.mp hn with heq | hmem
    · subst heq
      apply executeFrom_completed_mono wd oracle deps rest
      rw [hstepa hsafe]
      simp
    · refine ih (execStep wd oracle deps st a) ?_ ?_ n hmem hsafe
      · intro e he l₁ l₂ heq
        exact htopo e he (a :: l₁) l₂ (by rw [heq]; rfl)
      · intro e he h2
        rcases hdone e he (List.mem_cons_of_mem a h2) with h4 | h4
        · rcases List.mem_cons.mp h4 with h5 | h5
          · right
            intro hsafe2
            have hsafea : Safe deps oracle a := by
              have h6 := safe_of_dep deps oracle e.1 e.2 he hsafe2
              rwa [h5] at h6
            rw [hstepa hsafea]
            simp [h5]
          · exact Or.inl h5
        · right
          intro hsafe2
          exact execStep_completed_subset wd oracle deps st a e.1 (h4 hsafe2)

/-- C8 (executor semantics modelled from the spec, crash-dump directory
from the source): on a dependency-closed, topologically ordered node
list, every node that fails has its crash record stored in the configured
crash-dump directory `working_dir ++ "/crash_files"`, and every node that
does not (transitively) depend on a failing node still completes. -/
theorem crashdump_and_isolation
    (wd : String) (oracle : String → Bool) (deps : List (String × String))
    (order : List String) (n : String)
    (htopo : TopoOrdered deps order)
    (hclosed : ∀ e ∈ deps, e.1 ∈ order) :
    (∀ x ∈ (execute wd oracle deps order).failed,
      (crashdump_dir wd, x) ∈ (execute wd oracle deps order).crashRecords) ∧
    (n ∈ order → Safe deps oracle n →
      n ∈ (execute wd oracle deps order).completed) := by
  constructor
  · refine executeFrom_crash_records wd oracle deps order
      { completed := [], failed := [], blocked := [], crashRecords := [] } ?_
    intro x hx
    cases hx
  · intro hmem hsafe
    exact executeFrom_safe_completed wd oracle deps order _ htopo
      (fun e he _ => Or.inl (hclosed e he)) n hmem hsafe

/-- C8 witness: in a run where node `"a"` fails, its crash record lands
in `"/wd/crash_files"` while the unrelated node `"c"` completes. -/
theorem crashdump_and_isolation_witness :
    ("/wd/crash_files", "a") ∈
      (execute "/wd" (fun x => x == "a") [] ["a", "b", "c"]).crashRecords ∧
    "c" ∈ (execute "/wd" (fun x => x == "a") [] ["a", "b", "c"]).completed := by
  have htopo : TopoOrdered [] ["a", "b", "c"] := by
    intro e he
    cases he
  have hclosed : ∀ e ∈ ([] : List (String × String)), e.1 ∈ ["a", "b", "c"] := by
    intro e he
    cases he
  have hsafe : Safe [] (fun x => x == "a") "c" := by
    refine ⟨by decide, ?_⟩
    intro m h
    cases h with
    | direct h2 => cases h2
    | step h2 h3 => cases h2
  have h := crashdump_and_isolation "/wd" (fun x => x == "a") [] ["a", "b", "c"] "c"
    htopo hclosed
  exact ⟨h.1 "a" (by decide), h.2 (by decide) hsafe⟩
